import Mathlib

/-!
Shallow embedding of the canvas capture orchestrator from
packages/rrweb/src/record/observers/canvas/canvas-manager.ts.

The `CanvasManager` class state is modelled as `ManagerState`; JavaScript
`Map`s become association lists (JS `Map` preserves insertion order, which
matters for flush ordering), timestamps (`DOMHighResTimeStamp`) become `ℚ`,
and JS truthiness of numbers (`0` is falsy) is made explicit wherever the
source relies on it (`this.lastSnapshotTime &&`, `this.rafStamps.invokeId &&`,
`!canvas.width`, `this.snapshotInProgressMap.get(id)`).
The identity mirror, the candidate-canvas discovery and the worker are
external collaborators; they enter as parameters (`Mirror`, candidate lists,
`WorkerResponse`).
-/

namespace RRWeb

/-- The CanvasContext enum of rrweb-types: 2D, WebGL, WebGL2. -/
inductive CanvasContext where
  | ctx2D
  | webgl
  | webgl2
  deriving DecidableEq, Repr, Inhabited

/-- One argument of a recorded canvas command. Numeric arguments are `num`;
the nested ImageBitmap-of-Blob-of-ArrayBuffer structure built by the worker
reply handler is collapsed into `bitmap base64 blobType`. -/
inductive CanvasArg where
  | num (n : Int)
  | bitmap (base64 : String) (blobType : String)
  deriving DecidableEq, Repr

/-- A canvas element: an identity key plus its width/height attributes. -/
structure Canvas where
  key : Nat
  width : Nat
  height : Nat
  deriving DecidableEq, Repr

/-- canvasMutationWithType: one recorded operation, tagged with its context kind. -/
structure MutationWithType where
  type : CanvasContext
  property : String
  args : List CanvasArg
  deriving DecidableEq, Repr, Inhabited

/-- canvasMutationCommand: a recorded operation with the type tag stripped. -/
structure Command where
  property : String
  args : List CanvasArg
  deriving DecidableEq, Repr, Inhabited

/-- The emitted mutation event passed to mutationCb:
`\x7b id, type, commands \x7d`. -/
structure Event where
  id : Int
  type : CanvasContext
  commands : List Command
  deriving DecidableEq, Repr

/-- The external identity mirror: `getId` (−1 means unmapped) and `hasNode`. -/
structure Mirror where
  getId : Canvas → Int
  hasNode : Canvas → Bool

/-- RafStamps: `\x7b latestId: number; invokeId: number | null \x7d`. -/
structure RafStamps where
  latestId : ℚ
  invokeId : Option ℚ
  deriving DecidableEq, Repr

/-- A registered restore (teardown) handler: an identifying key plus whether
invoking it throws. `reset` wraps each call in try/catch, so a throwing
handler must not stop the remaining handlers from running. -/
structure Handler where
  key : Nat
  throws : Bool
  deriving DecidableEq, Repr

/-- The sampling option: the string literal all, or a number. -/
inductive Sampling where
  | all
  | num (n : ℚ)
  deriving DecidableEq, Repr

/-- A snapshot dispatch: the payload handed to createImageBitmap/postMessage
for one canvas (id, width, height). -/
structure Dispatch where
  id : Int
  width : Nat
  height : Nat
  deriving DecidableEq, Repr

/-- The response posted back by the bitmap-encoding worker. `base64 = none`
models a reply without a base64 field (the base64-in-data presence check). -/
structure WorkerResponse where
  id : Int
  base64 : Option String
  type : String
  width : Nat
  height : Nat
  deriving DecidableEq, Repr

/-- The mutable fields of one CanvasManager instance. -/
structure ManagerState where
  pendingCanvasMutations : List (Canvas × List MutationWithType)
  rafStamps : RafStamps
  frozen : Bool
  locked : Bool
  snapshotInProgressMap : List (Int × Bool)
  lastSnapshotTime : ℚ
  restoreHandlers : List Handler
  windows : List Nat
  windowsSet : List Nat
  shadowDoms : List Nat
  worker : Bool
  deriving DecidableEq, Repr

/-- Field initializers of a freshly constructed CanvasManager. -/
def initState : ManagerState where
  pendingCanvasMutations := []
  rafStamps := { latestId := 0, invokeId := none }
  frozen := false
  locked := false
  snapshotInProgressMap := []
  lastSnapshotTime := 0
  restoreHandlers := []
  windows := []
  windowsSet := []
  shadowDoms := []
  worker := false

/-- Map get on the pending buffer: `pendingCanvasMutations.get(c)`. -/
def pGet : List (Canvas × List MutationWithType) → Canvas → Option (List MutationWithType)
  | [], _ => none
  | e :: rest, c => if e.1 = c then some e.2 else pGet rest c

/-- Map create-or-push: `if (!map.has(c)) map.set(c, []); map.get(c).push(m)`
— appends `m` to the
entry of `c`, creating the entry at the end when absent (JS `Map.set` appends
new keys at the end of the iteration order; pushing into an existing entry
keeps its position). -/
def pPush (p : List (Canvas × List MutationWithType)) (c : Canvas)
    (m : MutationWithType) : List (Canvas × List MutationWithType) :=
  match p with
  | [] => [(c, [m])]
  | e :: rest => if e.1 = c then (e.1, e.2 ++ [m]) :: rest else e :: pPush rest c m

/-- Map delete on the pending buffer: `pendingCanvasMutations.delete(c)`. -/
def pDelete : List (Canvas × List MutationWithType) → Canvas →
    List (Canvas × List MutationWithType)
  | [], _ => []
  | e :: rest, c => if e.1 = c then pDelete rest c else e :: pDelete rest c

/-- Map get on the in-flight map: `snapshotInProgressMap.get(id)` (may be absent). -/
def iGet : List (Int × Bool) → Int → Option Bool
  | [], _ => none
  | e :: rest, id => if e.1 = id then some e.2 else iGet rest id

/-- JS truthiness of `snapshotInProgressMap.get(id)`: `undefined` and `false`
are both falsy. -/
def iGetD (m : List (Int × Bool)) (id : Int) : Bool :=
  (iGet m id).getD false

/-- Map set on the in-flight map: `snapshotInProgressMap.set(id, b)`. -/
def iSet (m : List (Int × Bool)) (id : Int) (b : Bool) : List (Int × Bool) :=
  match m with
  | [] => [(id, b)]
  | e :: rest => if e.1 = id then (e.1, b) :: rest else e :: iSet rest id b

/-- JS truthiness of `this.rafStamps.invokeId`: falsy when null or 0. -/
def rafInvokeTruthy (r : RafStamps) : Bool :=
  match r.invokeId with
  | none => false
  | some v => decide (v ≠ 0)

/-- The newFrame test:
`this.rafStamps.invokeId && this.rafStamps.latestId !== this.rafStamps.invokeId`. -/
def rafNewFrame (r : RafStamps) : Bool :=
  rafInvokeTruthy r && decide (some r.latestId ≠ r.invokeId)

/-- The stamp update:
`if (newFrame || !this.rafStamps.invokeId) this.rafStamps.invokeId = this.rafStamps.latestId`. -/
def updateRafStamps (r : RafStamps) : RafStamps :=
  if rafNewFrame r || !(rafInvokeTruthy r) then { r with invokeId := some r.latestId } else r

/-- processMutation: the mutation-intake callback. Updates the frame stamp,
then appends the mutation to the target canvas's pending queue. -/
def processMutation (st : ManagerState) (target : Canvas)
    (mutation : MutationWithType) : ManagerState :=
  { st with
    rafStamps := updateRafStamps st.rafStamps
    pendingCanvasMutations := pPush st.pendingCanvasMutations target mutation }

/-- Folds a list of intake calls through `processMutation`. -/
def applyIntakes (st : ManagerState) : List (Canvas × MutationWithType) → ManagerState
  | [] => st
  | (c, m) :: rest => applyIntakes (processMutation st c m) rest

/-- Drops the type tag of one record: `const (type, ...rest) = value; return rest`
(object destructuring in the source). -/
def stripType (v : MutationWithType) : Command :=
  { property := v.property, args := v.args }

/-- flushPendingCanvasMutationFor. Returns `none` on the path where the JS
code would throw (destructuring `valuesWithType[0]` of an empty array);
otherwise `some (state, emitted?)`. Bails out silently when frozen or
locked, when the canvas has no pending entry, or when `id === -1`
(note: the `id === -1` return happens before the delete, so the entry stays). -/
def flushPendingCanvasMutationFor (st : ManagerState) (canvas : Canvas) (id : Int) :
    Option (ManagerState × Option Event) :=
  if st.frozen || st.locked then some (st, none)
  else
    match pGet st.pendingCanvasMutations canvas with
    | none => some (st, none)
    | some valuesWithType =>
      if id = -1 then some (st, none)
      else
        match valuesWithType with
        | [] => none
        | v0 :: _ =>
          some ({ st with pendingCanvasMutations := pDelete st.pendingCanvasMutations canvas },
                some { id := id, type := v0.type, commands := valuesWithType.map stripType })

/-- The `pendingCanvasMutations.forEach` loop of flushPendingCanvasMutations,
iterating over a fixed list of canvases (each step only deletes its own
canvas's entry, so iterating the initial key list is faithful to iterating
the live `Map`). -/
def flushGo (mr : Mirror) : List Canvas → ManagerState → Option (ManagerState × List Event)
  | [], st => some (st, [])
  | c :: cs, st =>
    match flushPendingCanvasMutationFor st c (mr.getId c) with
    | none => none
    | some (st1, ev) =>
      match flushGo mr cs st1 with
      | none => none
      | some (st2, evs) => some (st2, ev.toList ++ evs)

/-- flushPendingCanvasMutations: for each pending canvas, look up its mirror
id and flush it. -/
def flushPendingCanvasMutations (mr : Mirror) (st : ManagerState) :
    Option (ManagerState × List Event) :=
  flushGo mr (st.pendingCanvasMutations.map (·.1)) st

/-- freeze(): `this.frozen = true`. -/
def freeze (st : ManagerState) : ManagerState := { st with frozen := true }

/-- unfreeze(): `this.frozen = false`. -/
def unfreeze (st : ManagerState) : ManagerState := { st with frozen := false }

/-- lock(): `this.locked = true`. -/
def lock (st : ManagerState) : ManagerState := { st with locked := true }

/-- unlock(): `this.locked = false`. -/
def unlock (st : ManagerState) : ManagerState := { st with locked := false }

/-- reset(): clears the pending buffer, runs every restore handler (each call
wrapped in try/catch, so a throwing handler is swallowed and iteration
continues — the returned list records which handlers were invoked, in order),
empties the handler list, the window set/list and the shadow-root set,
terminates and nulls the worker, and replaces the in-flight map.
Note: `frozen`, `locked`, `lastSnapshotTime` and `rafStamps` are untouched. -/
def reset (st : ManagerState) : ManagerState × List Nat :=
  ({ st with
      pendingCanvasMutations := []
      restoreHandlers := []
      windowsSet := []
      windows := []
      shadowDoms := []
      worker := false
      snapshotInProgressMap := [] },
   st.restoreHandlers.map (·.key))

/-- The fps the throttle uses: 2 when sampling is the all marker, else the
number, with the falsy value 0 replaced by 2 (`sampling || 2`). -/
def fpsOf (sampling : Sampling) : ℚ :=
  match sampling with
  | .all => 2
  | .num n => if n = 0 then 2 else n

/-- The throttle test:
`this.lastSnapshotTime && timestamp - this.lastSnapshotTime < timeBetweenSnapshots`
(`this.lastSnapshotTime` is falsy when 0, so the interval test is skipped then). -/
def shouldThrottle (sampling : Sampling) (st : ManagerState) (timestamp : ℚ) : Bool :=
  decide (st.lastSnapshotTime ≠ 0) &&
    decide (timestamp - st.lastSnapshotTime < 1000 / fpsOf sampling)

/-- The skip test of the per-canvas loop:
`!this.mirror.hasNode(canvas) || !canvas.width || !canvas.height ||
this.snapshotInProgressMap.get(id)`: the skip test of the per-canvas loop. -/
def snapshotSkip (mr : Mirror) (m : List (Int × Bool)) (canvas : Canvas) : Bool :=
  !(mr.hasNode canvas) || decide (canvas.width = 0) || decide (canvas.height = 0) ||
    iGetD m (mr.getId canvas)

/-- The `canvases.forEach` body of takeSnapshot: skip ineligible canvases,
otherwise mark the id in-flight and dispatch a bitmap-capture request.
(The WebGL preserveDrawingBuffer workaround only touches the external canvas,
not manager state, so it does not appear here.) -/
def takeSnapshotPass (mr : Mirror) : List (Int × Bool) → List Canvas →
    List (Int × Bool) × List Dispatch
  | m, [] => (m, [])
  | m, c :: cs =>
    if snapshotSkip mr m c then takeSnapshotPass mr m cs
    else
      let m1 := iSet m (mr.getId c) true
      let rest := takeSnapshotPass mr m1 cs
      (rest.1, { id := mr.getId c, width := c.width, height := c.height } :: rest.2)

/-- takeSnapshot: throttle check, then `lastSnapshotTime = timestamp`, then the
per-canvas dispatch loop over the candidate canvases (the single target if
given, else the discovered ones — supplied here as a list). Returns the
updated state, the boolean result (false = throttled) and the dispatches.
`isManualSnapshot` is accepted but, as in the source, plays no part in the
throttle decision (it only gates the WebGL workaround). -/
def takeSnapshot (mr : Mirror) (sampling : Sampling) (st : ManagerState)
    (timestamp : ℚ) (isManualSnapshot : Bool) (candidates : List Canvas) :
    ManagerState × Bool × List Dispatch :=
  if shouldThrottle sampling st timestamp then (st, false, [])
  else
    let st1 := { st with lastSnapshotTime := timestamp }
    let rest := takeSnapshotPass mr st1.snapshotInProgressMap candidates
    let _ := isManualSnapshot
    ({ st1 with snapshotInProgressMap := rest.1 }, true, rest.2)

/-- The `clearRect` command synthesized from a worker reply. -/
def clearRectCommand (width height : Nat) : Command :=
  { property := "clearRect", args := [.num 0, .num 0, .num width, .num height] }

/-- The `drawImage` command synthesized from a worker reply. -/
def drawImageCommand (base64 blobType : String) (width height : Nat) : Command :=
  { property := "drawImage",
    args := [.bitmap base64 blobType, .num 0, .num 0, .num width, .num height] }

/-- The `worker.onmessage` handler of initFPSWorker: clear the in-flight flag
for the replied id; if the reply has no base64 field, stop; otherwise emit
one mutation event of context kind 2D with a clearRect followed by a
drawImage of the decoded bitmap. -/
def handleWorkerResponse (st : ManagerState) (data : WorkerResponse) :
    ManagerState × List Event :=
  let st1 := { st with snapshotInProgressMap := iSet st.snapshotInProgressMap data.id false }
  match data.base64 with
  | none => (st1, [])
  | some b64 =>
    (st1, [{ id := data.id, type := CanvasContext.ctx2D,
             commands := [clearRectCommand data.width data.height,
                          drawImageCommand b64 data.type data.width data.height] }])

/-- The event a flush emits for one pending entry: the mirror id, the type of
the first queued record, and the records with their type tags stripped, in
queue order. -/
def mkFlushEvent (mr : Mirror) (e : Canvas × List MutationWithType) : Event :=
  { id := mr.getId e.1, type := (e.2.headD default).type, commands := e.2.map stripType }

/-- The pending buffer a sequence of intake calls builds: fold of `pPush`. -/
def pushAll (p : List (Canvas × List MutationWithType)) :
    List (Canvas × MutationWithType) → List (Canvas × List MutationWithType)
  | [] => p
  | (c, m) :: rest => pushAll (pPush p c m) rest

/-- The records a list of intake calls contributes to one canvas, in
insertion order. -/
def recordsFor (ins : List (Canvas × MutationWithType)) (c : Canvas) :
    List MutationWithType :=
  (ins.filter (fun pr => decide (pr.1 = c))).map (·.2)

/-- Appends extra records to an optional queue; an absent queue stays absent
exactly when nothing is appended. -/
def optAppend : Option (List MutationWithType) → List MutationWithType →
    Option (List MutationWithType)
  | o, [] => o
  | none, rs => some rs
  | some vs, rs => some (vs ++ rs)

/-- Claim-side restatement of the frame-stamp update rule as the spec words
it: set `invokeId := latestId` exactly when `invokeId` is unset or `latestId`
differs from it. Compared against `updateRafStamps`, the code's rule (which
also treats `invokeId = 0` as unset, via JS truthiness). -/
def specInvokeUpdate (r : RafStamps) : Option ℚ :=
  if r.invokeId = none ∨ r.invokeId ≠ some r.latestId then some r.latestId else r.invokeId

/-- A mirror mapping every canvas to its key, with every node tracked. -/
def mirrorA : Mirror := ⟨fun c => Int.ofNat c.key, fun _ => true⟩

/-- A concrete canvas used on concrete runs. -/
def canvasA : Canvas := ⟨1, 10, 10⟩

/-- intake record 1 of the worked example: fillRect(0,0,10,10). -/
def mA1 : MutationWithType :=
  ⟨CanvasContext.ctx2D, "fillRect", [.num 0, .num 0, .num 10, .num 10]⟩

/-- intake record 2 of the worked example: fillRect(10,10,5,5). -/
def mA2 : MutationWithType :=
  ⟨CanvasContext.ctx2D, "fillRect", [.num 10, .num 10, .num 5, .num 5]⟩

/-- The worked example's intake sequence: two records for the same canvas. -/
def insA : List (Canvas × MutationWithType) := [(canvasA, mA1), (canvasA, mA2)]

theorem iGet_iSet_self (m : List (Int × Bool)) (id : Int) (b : Bool) :
    iGet (iSet m id b) id = some b := by
  induction m with
  | nil => simp [iSet, iGet]
  | cons e rest ih =>
    by_cases h : e.1 = id
    · simp [iSet, iGet, h]
    · simp [iSet, iGet, h, ih]

theorem iGet_iSet_ne (m : List (Int × Bool)) (j id : Int) (b : Bool) (h : j ≠ id) :
    iGet (iSet m j b) id = iGet m id := by
  induction m with
  | nil => simp [iSet, iGet, h]
  | cons e rest ih =>
    by_cases he : e.1 = j
    · simp [iSet, iGet, he, h]
    · by_cases he2 : e.1 = id
      · simp [iSet, iGet, he, he2, Ne.symm h]
      · simp [iSet, iGet, he, he2, ih]

theorem iGetD_iSet_self (m : List (Int × Bool)) (id : Int) (b : Bool) :
    iGetD (iSet m id b) id = b := by
  simp [iGetD, iGet_iSet_self]

theorem iGetD_iSet_ne (m : List (Int × Bool)) (j id : Int) (b : Bool) (h : j ≠ id) :
    iGetD (iSet m j b) id = iGetD m id := by
  simp [iGetD, iGet_iSet_ne m j id b h]

theorem pGet_pPush_self (p : List (Canvas × List MutationWithType)) (c : Canvas)
    (m : MutationWithType) : pGet (pPush p c m) c = optAppend (pGet p c) [m] := by
  induction p with
  | nil => simp [pPush, pGet, optAppend]
  | cons e rest ih =>
    by_cases h : e.1 = c
    · simp [pPush, pGet, h, optAppend]
    · simp [pPush, pGet, h, ih]

theorem pGet_pPush_ne (p : List (Canvas × List MutationWithType)) (c c' : Canvas)
    (m : MutationWithType) (h : c ≠ c') : pGet (pPush p c m) c' = pGet p c' := by
  induction p with
  | nil => simp [pPush, pGet, h]
  | cons e rest ih =>
    by_cases he : e.1 = c
    · simp [pPush, pGet, he, h]
    · by_cases he2 : e.1 = c'
      · simp [pPush, pGet, he, he2, Ne.symm h]
      · simp [pPush, pGet, he, he2, ih]

theorem pPush_keys (p : List (Canvas × List MutationWithType)) (c : Canvas)
    (m : MutationWithType) :
    (pPush p c m).map (·.1) =
      if c ∈ p.map (·.1) then p.map (·.1) else p.map (·.1) ++ [c] := by
  induction p with
  | nil => simp [pPush]
  | cons e rest ih =>
    by_cases h : e.1 = c
    · simp [pPush, h]
    · by_cases hm : c ∈ rest.map (·.1)
      · simp [pPush, h, ih, hm, Ne.symm h]
      · simp [pPush, h, ih, hm, Ne.symm h]

theorem pPush_values_ne_nil (p : List (Canvas × List MutationWithType)) (c : Canvas)
    (m : MutationWithType) (hp : ∀ e ∈ p, e.2 ≠ []) :
    ∀ e ∈ pPush p c m, e.2 ≠ [] := by
  induction p with
  | nil =>
    intro x hx
    simp [pPush] at hx
    subst hx
    simp
  | cons e rest ih =>
    intro x hx
    by_cases h : e.1 = c
    · rw [show pPush (e :: rest) c m = (e.1, e.2 ++ [m]) :: rest from by simp [pPush, h]] at hx
      rcases List.mem_cons.mp hx with hx1 | hx1
      · subst hx1; simp
      · exact hp x (List.mem_cons_of_mem _ hx1)
    · rw [show pPush (e :: rest) c m = e :: pPush rest c m from by simp [pPush, h]] at hx
      rcases List.mem_cons.mp hx with hx1 | hx1
      · subst hx1; exact hp x (List.mem_cons_self _ _)
      · exact ih (fun y hy => hp y (List.mem_cons_of_mem _ hy)) x hx1

theorem pDelete_of_not_mem (p : List (Canvas × List MutationWithType)) (c : Canvas)
    (h : c ∉ p.map (·.1)) : pDelete p c = p := by
  induction p with
  | nil => simp [pDelete]
  | cons e rest ih =>
    simp only [List.map_cons, List.mem_cons] at h
    push_neg at h
    simp [pDelete, Ne.symm h.1, ih h.2]

theorem optAppend_snoc (o : Option (List MutationWithType)) (m : MutationWithType)
    (rs : List MutationWithType) :
    optAppend (optAppend o [m]) rs = optAppend o (m :: rs) := by
  cases o <;> cases rs <;> simp [optAppend]

theorem applyIntakes_pending (st : ManagerState) (ins : List (Canvas × MutationWithType)) :
    (applyIntakes st ins).pendingCanvasMutations = pushAll st.pendingCanvasMutations ins := by
  induction ins generalizing st with
  | nil => simp [applyIntakes, pushAll]
  | cons pr rest ih =>
    obtain ⟨c, m⟩ := pr
    simp [applyIntakes, pushAll, ih, processMutation]

theorem applyIntakes_frozen (st : ManagerState) (ins : List (Canvas × MutationWithType)) :
    (applyIntakes st ins).frozen = st.frozen := by
  induction ins generalizing st with
  | nil => simp [applyIntakes]
  | cons pr rest ih =>
    obtain ⟨c, m⟩ := pr
    simp [applyIntakes, ih, processMutation]

theorem applyIntakes_locked (st : ManagerState) (ins : List (Canvas × MutationWithType)) :
    (applyIntakes st ins).locked = st.locked := by
  induction ins generalizing st with
  | nil => simp [applyIntakes]
  | cons pr rest ih =>
    obtain ⟨c, m⟩ := pr
    simp [applyIntakes, ih, processMutation]

theorem pGet_pushAll (p : List (Canvas × List MutationWithType))
    (ins : List (Canvas × MutationWithType)) (c : Canvas) :
    pGet (pushAll p ins) c = optAppend (pGet p c) (recordsFor ins c) := by
  induction ins generalizing p with
  | nil => simp [pushAll, recordsFor, optAppend]
  | cons pr rest ih =>
    obtain ⟨c0, m0⟩ := pr
    by_cases h : c0 = c
    · subst h
      simp only [pushAll]
      rw [ih, pGet_pPush_self, optAppend_snoc]
      simp [recordsFor]
    · simp only [pushAll]
      rw [ih, pGet_pPush_ne _ _ _ _ h]
      simp [recordsFor, h]

theorem pushAll_keys_nodup (p : List (Canvas × List MutationWithType))
    (ins : List (Canvas × MutationWithType)) (h : (p.map (·.1)).Nodup) :
    ((pushAll p ins).map (·.1)).Nodup := by
  induction ins generalizing p with
  | nil => simpa [pushAll]
  | cons pr rest ih =>
    obtain ⟨c0, m0⟩ := pr
    simp only [pushAll]
    apply ih
    rw [pPush_keys]
    by_cases hm : c0 ∈ p.map (·.1)
    · simpa [hm]
    · simp only [if_neg hm]
      simpa [List.nodup_append, hm] using h

theorem mem_keys_pushAll (p : List (Canvas × List MutationWithType))
    (ins : List (Canvas × MutationWithType)) (c : Canvas) :
    c ∈ (pushAll p ins).map (·.1) ↔ c ∈ p.map (·.1) ∨ c ∈ ins.map (·.1) := by
  induction ins generalizing p with
  | nil => simp [pushAll]
  | cons pr rest ih =>
    obtain ⟨c0, m0⟩ := pr
    simp only [pushAll]
    rw [ih, pPush_keys]
    by_cases hm : c0 ∈ p.map (·.1)
    · simp only [if_pos hm, List.map_cons, List.mem_cons]
      constructor
      · rintro (h | h)
        · exact Or.inl h
        · exact Or.inr (Or.inr h)
      · rintro (h | h | h)
        · exact Or.inl h
        · subst h; exact Or.inl hm
        · exact Or.inr h
    · simp only [if_neg hm, List.map_cons, List.mem_cons, List.mem_append,
        List.mem_singleton]
      tauto

theorem pushAll_values_ne_nil (p : List (Canvas × List MutationWithType))
    (ins : List (Canvas × MutationWithType)) (hp : ∀ e ∈ p, e.2 ≠ []) :
    ∀ e ∈ pushAll p ins, e.2 ≠ [] := by
  induction ins generalizing p with
  | nil => simp only [pushAll]; exact hp
  | cons pr rest ih =>
    obtain ⟨c0, m0⟩ := pr
    simp only [pushAll]
    exact ih _ (pPush_values_ne_nil p c0 m0 hp)

theorem setPending_self (st : ManagerState) (h : st.pendingCanvasMutations = []) :
    ({ st with pendingCanvasMutations := [] } : ManagerState) = st := by
  cases st
  simp_all

theorem flushGo_drains (mr : Mirror) (p : List (Canvas × List MutationWithType))
    (st : ManagerState)
    (hp : st.pendingCanvasMutations = p)
    (hf : st.frozen = false) (hl : st.locked = false)
    (hnd : (p.map (·.1)).Nodup)
    (hne : ∀ e ∈ p, e.2 ≠ [])
    (hid : ∀ e ∈ p, mr.getId e.1 ≠ -1) :
    flushGo mr (p.map (·.1)) st =
      some ({ st with pendingCanvasMutations := [] }, p.map (mkFlushEvent mr)) := by
  induction p generalizing st with
  | nil =>
    simp [flushGo, setPending_self st hp]
  | cons e rest ih =>
    obtain ⟨c, vs⟩ := e
    have hnd2 : (c :: rest.map (·.1)).Nodup := by
      rw [List.map_cons] at hnd; exact hnd
    have hnd' := List.nodup_cons.mp hnd2
    have hkey : c ∉ rest.map (·.1) := hnd'.1
    have hvs : vs ≠ [] := hne (c, vs) (List.mem_cons_self _ _)
    obtain ⟨v0, vtl, rfl⟩ := List.exists_cons_of_ne_nil hvs
    have hpg : pGet st.pendingCanvasMutations c = some (v0 :: vtl) := by
      rw [hp]; simp [pGet]
    have hdel : pDelete st.pendingCanvasMutations c = rest := by
      rw [hp]; simp [pDelete, pDelete_of_not_mem rest c hkey]
    have hone : flushPendingCanvasMutationFor st c (mr.getId c) =
        some ({ st with pendingCanvasMutations := rest },
              some (mkFlushEvent mr (c, v0 :: vtl))) := by
      simp [flushPendingCanvasMutationFor, hf, hl, hpg, hdel,
        hid (c, v0 :: vtl) (List.mem_cons_self _ _), mkFlushEvent]
    have ihres := ih ({ st with pendingCanvasMutations := rest }) rfl (by simp [hf])
      (by simp [hl]) hnd'.2
      (fun e he => hne e (List.mem_cons_of_mem _ he))
      (fun e he => hid e (List.mem_cons_of_mem _ he))
    simp only [List.map_cons, flushGo, hone, ihres]
    simp

theorem flushGo_gated (mr : Mirror) (cs : List Canvas) (st : ManagerState)
    (hg : st.frozen = true ∨ st.locked = true) :
    flushGo mr cs st = some (st, []) := by
  induction cs with
  | nil => simp [flushGo]
  | cons c rest ih =>
    have hone : flushPendingCanvasMutationFor st c (mr.getId c) = some (st, none) := by
      rcases hg with h | h <;> simp [flushPendingCanvasMutationFor, h]
    simp [flushGo, hone, ih]

theorem updateRafStamps_eq_spec (r : RafStamps) :
    (updateRafStamps r).invokeId = specInvokeUpdate r := by
  obtain ⟨l, i⟩ := r
  cases i with
  | none => simp [updateRafStamps, rafNewFrame, rafInvokeTruthy, specInvokeUpdate]
  | some v =>
    by_cases hv : v = 0
    · subst hv
      by_cases hl : l = 0
      · subst hl
        simp [updateRafStamps, rafNewFrame, rafInvokeTruthy, specInvokeUpdate]
      · simp [updateRafStamps, rafNewFrame, rafInvokeTruthy, specInvokeUpdate, hl,
          Ne.symm hl]
    · by_cases hlv : l = v
      · subst hlv
        simp [updateRafStamps, rafNewFrame, rafInvokeTruthy, specInvokeUpdate, hv]
      · simp [updateRafStamps, rafNewFrame, rafInvokeTruthy, specInvokeUpdate, hv, hlv,
          Ne.symm hlv]

/-- A state whose pending buffer holds one entry: canvasA ↦ [mA1]. -/
def stPend1 : ManagerState :=
  { initState with pendingCanvasMutations := [(canvasA, [mA1])] }

/-- A state with id 5 in-flight. -/
def stInFlight : ManagerState :=
  { initState with snapshotInProgressMap := [(5, true)] }

/-- A state whose frame stamp is set: latestId = 5, invokeId = 5. -/
def stStamp : ManagerState :=
  { initState with rafStamps := { latestId := 5, invokeId := some 5 } }

/-- A worker reply without a base64 field. -/
def respNone : WorkerResponse := ⟨5, none, "image/webp", 3, 4⟩

/-- A worker reply carrying a base64 payload. -/
def respB64 : WorkerResponse := ⟨7, some "QUJD", "image/webp", 8, 6⟩

/-- C1: after any sequence of intake calls, the pending buffer holds one entry
per distinct canvas (keys without duplicates, exactly the intaken canvases),
each entry's queue is that canvas's records in insertion order, and a flush —
gates clear, every canvas mapped — emits exactly one event per entry (id from
the mirror, type from the first record, commands the records with the type
tag stripped, in order) and empties the buffer, so every canvas's entry is
absent afterwards. -/
theorem c1_flush_per_canvas (mr : Mirror) (ins : List (Canvas × MutationWithType))
    (st0 : ManagerState) (h0 : st0.pendingCanvasMutations = [])
    (hf : st0.frozen = false) (hl : st0.locked = false)
    (hid : ∀ pr ∈ ins, mr.getId pr.1 ≠ -1) :
    ((applyIntakes st0 ins).pendingCanvasMutations.map (·.1)).Nodup ∧
    (∀ c, c ∈ (applyIntakes st0 ins).pendingCanvasMutations.map (·.1) ↔
      c ∈ ins.map (·.1)) ∧
    (∀ c, c ∈ ins.map (·.1) →
      pGet (applyIntakes st0 ins).pendingCanvasMutations c = some (recordsFor ins c)) ∧
    flushPendingCanvasMutations mr (applyIntakes st0 ins) =
      some ({ applyIntakes st0 ins with pendingCanvasMutations := [] },
            (applyIntakes st0 ins).pendingCanvasMutations.map (mkFlushEvent mr)) := by
  have hpend := applyIntakes_pending st0 ins
  rw [h0] at hpend
  have hmem : ∀ c, c ∈ (applyIntakes st0 ins).pendingCanvasMutations.map (·.1) ↔
      c ∈ ins.map (·.1) := by
    intro c
    rw [hpend, mem_keys_pushAll]
    simp
  refine ⟨?_, hmem, ?_, ?_⟩
  · rw [hpend]
    exact pushAll_keys_nodup _ _ (by simp)
  · intro c hc
    have hrec : recordsFor ins c ≠ [] := by
      obtain ⟨pr, hpr, hprc⟩ := List.mem_map.mp hc
      intro hcon
      have hmem2 : pr ∈ ins.filter (fun pr => decide (pr.1 = c)) :=
        List.mem_filter.mpr ⟨hpr, by simp [hprc]⟩
      have hfil : ins.filter (fun pr => decide (pr.1 = c)) = [] := by
        simpa [recordsFor] using hcon
      rw [hfil] at hmem2
      exact absurd hmem2 (List.not_mem_nil _)
    rw [hpend, pGet_pushAll]
    cases hcase : recordsFor ins c with
    | nil => exact absurd hcase hrec
    | cons a l => simp [pGet, optAppend]
  · unfold flushPendingCanvasMutations
    refine flushGo_drains mr _ _ rfl ?_ ?_ ?_ ?_ ?_
    · rw [applyIntakes_frozen]; exact hf
    · rw [applyIntakes_locked]; exact hl
    · rw [hpend]; exact pushAll_keys_nodup _ _ (by simp)
    · rw [hpend]; exact pushAll_values_ne_nil _ _ (by simp)
    · intro e he
      have hk : e.1 ∈ (applyIntakes st0 ins).pendingCanvasMutations.map (·.1) :=
        List.mem_map.mpr ⟨e, he, rfl⟩
      obtain ⟨pr, hpr, hprc⟩ := List.mem_map.mp ((hmem e.1).mp hk)
      rw [← hprc]
      exact hid pr hpr

/-- C1 witness: two fillRect intakes on canvasA, then a flush: the buffer
holds both records in order, and the flush emits them, emptying the buffer. -/
theorem c1_witness :
    (applyIntakes initState insA).pendingCanvasMutations = [(canvasA, [mA1, mA2])] ∧
    flushPendingCanvasMutations mirrorA (applyIntakes initState insA) =
      some ({ applyIntakes initState insA with pendingCanvasMutations := [] },
            (applyIntakes initState insA).pendingCanvasMutations.map (mkFlushEvent mirrorA)) :=
  ⟨by rw [applyIntakes_pending]; simp [pushAll, pPush, initState, insA],
   (c1_flush_per_canvas mirrorA insA initState rfl rfl rfl (by decide)).2.2.2⟩

/-- C3: while frozen or locked, a flush (of one canvas, or of the whole
buffer) emits nothing and leaves the state untouched; intake still appends
to the canvas's queue; and after unfreeze and unlock the next flush of a
canvas emits its entire accumulated queue. -/
theorem c3_gates (mr : Mirror) (st : ManagerState) (c : Canvas) (m : MutationWithType)
    (id : Int) (hg : st.frozen = true ∨ st.locked = true) :
    flushPendingCanvasMutationFor st c id = some (st, none) ∧
    flushPendingCanvasMutations mr st = some (st, []) ∧
    pGet (processMutation st c m).pendingCanvasMutations c =
      optAppend (pGet st.pendingCanvasMutations c) [m] ∧
    (processMutation st c m).frozen = st.frozen ∧
    (processMutation st c m).locked = st.locked ∧
    (∀ vs, pGet st.pendingCanvasMutations c = some vs → vs ≠ [] → id ≠ -1 →
      flushPendingCanvasMutationFor (unfreeze (unlock st)) c id =
        some ({ unfreeze (unlock st) with
                  pendingCanvasMutations := pDelete st.pendingCanvasMutations c },
              some { id := id, type := (vs.headD default).type,
                     commands := vs.map stripType })) := by
  refine ⟨?_, ?_, ?_, ?_, ?_, ?_⟩
  · rcases hg with h | h <;> simp [flushPendingCanvasMutationFor, h]
  · unfold flushPendingCanvasMutations
    exact flushGo_gated mr _ st hg
  · simp [processMutation, pGet_pPush_self]
  · simp [processMutation]
  · simp [processMutation]
  · intro vs hvs hne hid
    obtain ⟨v0, vtl, rfl⟩ := List.exists_cons_of_ne_nil hne
    simp [flushPendingCanvasMutationFor, unfreeze, unlock, hvs, hid]

/-- C3 witness: with one record pending for canvasA, freezing inhibits the
flush; after unfreeze (and unlock) the flush emits the whole queue. -/
theorem c3_witness :
    flushPendingCanvasMutationFor (freeze stPend1) canvasA 1 = some (freeze stPend1, none) ∧
    flushPendingCanvasMutationFor (unfreeze (unlock (freeze stPend1))) canvasA 1 =
      some ({ unfreeze (unlock (freeze stPend1)) with
                pendingCanvasMutations := pDelete (freeze stPend1).pendingCanvasMutations canvasA },
            some { id := 1, type := (([mA1] : List MutationWithType).headD default).type,
                   commands := [mA1].map stripType }) :=
  ⟨(c3_gates mirrorA (freeze stPend1) canvasA mA1 1 (Or.inl rfl)).1,
   (c3_gates mirrorA (freeze stPend1) canvasA mA1 1 (Or.inl rfl)).2.2.2.2.2
     [mA1] rfl (by decide) (by decide)⟩

/-- C4 counterexample: with canvasA's queue pending and the id resolving to
−1, the flush emits nothing and raises nothing — but the entry is NOT
removed: the state is returned unchanged, the entry still present. -/
theorem c4_counterexample :
    flushPendingCanvasMutationFor stPend1 canvasA (-1) = some (stPend1, none) ∧
    pGet stPend1.pendingCanvasMutations canvasA = some [mA1] :=
  ⟨rfl, rfl⟩

/-- C4 (amended): at flush time an identity resolving to −1 yields no event
and no error, and the state — including the canvas's pending entry — is left
unchanged (the entry is retained, not dropped). -/
theorem c4_unmapped_id (st : ManagerState) (c : Canvas) :
    flushPendingCanvasMutationFor st c (-1) = some (st, none) := by
  by_cases hf : (st.frozen || st.locked) = true
  · simp [flushPendingCanvasMutationFor, hf]
  · cases hpg : pGet st.pendingCanvasMutations c <;>
      simp [flushPendingCanvasMutationFor, hf, hpg]

/-- C6: a worker reply clears the in-flight flag for its id, and a reply
without a base64 payload emits zero mutation events. -/
theorem c6_worker_reply (st : ManagerState) (data : WorkerResponse) :
    iGetD (handleWorkerResponse st data).1.snapshotInProgressMap data.id = false ∧
    (data.base64 = none → (handleWorkerResponse st data).2 = []) := by
  constructor
  · cases hb : data.base64 <;> simp [handleWorkerResponse, hb, iGetD_iSet_self]
  · intro hb
    simp [handleWorkerResponse, hb]

/-- C6 witness: a payload-less reply for in-flight id 5 clears the flag and
emits nothing. -/
theorem c6_witness :
    iGetD (handleWorkerResponse stInFlight respNone).1.snapshotInProgressMap 5 = false ∧
    (handleWorkerResponse stInFlight respNone).2 = [] :=
  ⟨(c6_worker_reply stInFlight respNone).1, (c6_worker_reply stInFlight respNone).2 rfl⟩

/-- C8: on intake the invokeId update matches the spec's rule — set to
latestId exactly when unset or different (JS truthiness of 0 makes no
observable difference) — latestId is untouched, and an invokeId already equal
to latestId keeps its value. -/
theorem c8_frame_stamp (st : ManagerState) (c : Canvas) (m : MutationWithType) :
    (processMutation st c m).rafStamps.invokeId = specInvokeUpdate st.rafStamps ∧
    (processMutation st c m).rafStamps.latestId = st.rafStamps.latestId ∧
    (st.rafStamps.invokeId = some st.rafStamps.latestId →
      (processMutation st c m).rafStamps.invokeId = st.rafStamps.invokeId) := by
  refine ⟨?_, ?_, ?_⟩
  · show (updateRafStamps st.rafStamps).invokeId = _
    exact updateRafStamps_eq_spec st.rafStamps
  · show (updateRafStamps st.rafStamps).latestId = _
    rw [updateRafStamps]
    split <;> rfl
  · intro h
    have h1 : (processMutation st c m).rafStamps.invokeId = specInvokeUpdate st.rafStamps :=
      updateRafStamps_eq_spec st.rafStamps
    rw [h1]
    simp [specInvokeUpdate, h]

/-- C8 witness: with latestId = 5 and invokeId = 5, an intake leaves invokeId
unchanged. -/
theorem c8_witness :
    (processMutation stStamp canvasA mA1).rafStamps.invokeId = stStamp.rafStamps.invokeId :=
  (c8_frame_stamp stStamp canvasA mA1).2.2 rfl

/-- C9: a worker reply carrying a base64 payload emits exactly one mutation
event even while frozen or locked — under the same gates the pending-buffer
flush path emits nothing. -/
theorem c9_gates_not_snapshot_path (st : ManagerState) (data : WorkerResponse)
    (b64 : String) (c : Canvas) (id : Int)
    (hg : st.frozen = true ∨ st.locked = true) (hb : data.base64 = some b64) :
    (handleWorkerResponse st data).2.length = 1 ∧
    flushPendingCanvasMutationFor st c id = some (st, none) := by
  constructor
  · simp [handleWorkerResponse, hb]
  · rcases hg with h | h <;> simp [flushPendingCanvasMutationFor, h]

/-- C9 witness: while frozen, a reply with payload still emits one event and
the flush path stays inhibited. -/
theorem c9_witness :
    (handleWorkerResponse (freeze initState) respB64).2.length = 1 ∧
    flushPendingCanvasMutationFor (freeze initState) canvasA 1 =
      some (freeze initState, none) :=
  ⟨(c9_gates_not_snapshot_path (freeze initState) respB64 "QUJD" canvasA 1
      (Or.inl rfl) rfl).1,
   (c9_gates_not_snapshot_path (freeze initState) respB64 "QUJD" canvasA 1
      (Or.inl rfl) rfl).2⟩

/-- C10: every snapshot-derived mutation event has context kind 2D and
exactly the two commands clearRect(0,0,width,height) then
drawImage(bitmap,0,0,width,height) — the reply carries no context kind at
all, so this holds whatever the canvas's recorded context was. -/
theorem c10_snapshot_event_shape (st : ManagerState) (data : WorkerResponse)
    (b64 : String) (hb : data.base64 = some b64) :
    (handleWorkerResponse st data).2 =
      [{ id := data.id, type := CanvasContext.ctx2D,
         commands := [clearRectCommand data.width data.height,
                      drawImageCommand b64 data.type data.width data.height] }] := by
  simp [handleWorkerResponse, hb]

/-- C10 witness: the concrete reply yields the 2D clearRect/drawImage pair. -/
theorem c10_witness :
    (handleWorkerResponse initState respB64).2 =
      [{ id := 7, type := CanvasContext.ctx2D,
         commands := [clearRectCommand 8 6, drawImageCommand "QUJD" "image/webp" 8 6] }] :=
  c10_snapshot_event_shape initState respB64 "QUJD" rfl

/-- C2 counterexample: with fps = 2, a first snapshot at t = 0 succeeds but
stores lastSnapshotTime = 0, which is falsy — so the call at t = 400 is NOT
throttled (the claim says it is); and a manual call 100ms after a snapshot IS
throttled (the claim says manual calls never are). -/
theorem c2_counterexample :
    (takeSnapshot mirrorA (Sampling.num 2)
        ((takeSnapshot mirrorA (Sampling.num 2) initState 0 false []).1)
        400 false []).2.1 = true ∧
    (takeSnapshot mirrorA (Sampling.num 2)
        ((takeSnapshot mirrorA (Sampling.num 2) initState 100 false []).1)
        200 true []).2.1 = false := by
  have h0 : shouldThrottle (Sampling.num 2) initState 0 = false := by
    simp [shouldThrottle, initState]
  have hs0 : (takeSnapshot mirrorA (Sampling.num 2) initState 0 false []).1 =
      initState := by
    simp only [takeSnapshot, h0]
    simp [takeSnapshotPass, initState]
  have h400 : shouldThrottle (Sampling.num 2) initState 400 = false := by
    simp [shouldThrottle, initState]
  have h100 : shouldThrottle (Sampling.num 2) initState 100 = false := by
    simp [shouldThrottle, initState]
  have hs100 : (takeSnapshot mirrorA (Sampling.num 2) initState 100 false []).1 =
      { initState with lastSnapshotTime := 100 } := by
    simp only [takeSnapshot, h100]
    simp [takeSnapshotPass, initState]
  have hthr : shouldThrottle (Sampling.num 2)
      { initState with lastSnapshotTime := 100 } 200 = true := by
    simp [shouldThrottle, initState, fpsOf]
    norm_num
  constructor
  · rw [hs0]
    simp [takeSnapshot, h400]
  · rw [hs100]
    simp [takeSnapshot, hthr]

/-- C2 (amended): a takeSnapshot call — manual-forced or not — is throttled
(returns false with no state change and no dispatch) iff lastSnapshotTime ≠ 0
and t − lastSnapshotTime < 1000/fps; a non-throttled call sets
lastSnapshotTime := t. With fps = 2 the first snapshot at t = 0 succeeds but
leaves lastSnapshotTime = 0 (falsy), so a call at t = 400 also succeeds, and
a call at t = 600 is then throttled. -/
theorem c2_throttle_rule (mr : Mirror) (sampling : Sampling) (st : ManagerState)
    (t : ℚ) (manual : Bool) (cands : List Canvas) :
    ((takeSnapshot mr sampling st t manual cands).2.1 = false ↔
      (st.lastSnapshotTime ≠ 0 ∧ t - st.lastSnapshotTime < 1000 / fpsOf sampling)) ∧
    (shouldThrottle sampling st t = true →
      takeSnapshot mr sampling st t manual cands = (st, false, [])) ∧
    (shouldThrottle sampling st t = false →
      (takeSnapshot mr sampling st t manual cands).1.lastSnapshotTime = t) := by
  have hiff : shouldThrottle sampling st t = true ↔
      (st.lastSnapshotTime ≠ 0 ∧ t - st.lastSnapshotTime < 1000 / fpsOf sampling) := by
    simp [shouldThrottle]
  refine ⟨?_, ?_, ?_⟩
  · by_cases h : shouldThrottle sampling st t = true
    · constructor
      · intro _
        exact hiff.mp h
      · intro _
        simp [takeSnapshot, h]
    · have hf : shouldThrottle sampling st t = false := by
        cases hb : shouldThrottle sampling st t with
        | false => rfl
        | true => exact absurd hb h
      constructor
      · intro hcon
        simp [takeSnapshot, hf] at hcon
      · intro hrhs
        exact absurd (hiff.mpr hrhs) h
  · intro h
    simp [takeSnapshot, h]
  · intro h
    simp [takeSnapshot, h]

/-- A state whose last snapshot happened at t = 400. -/
def stT400 : ManagerState := { initState with lastSnapshotTime := 400 }

/-- C2 witness: at t = 600, 200ms after the last snapshot, both a non-manual
and a manual call are throttled with no side effects. -/
theorem c2_witness :
    takeSnapshot mirrorA (Sampling.num 2) stT400 600 false [] = (stT400, false, []) ∧
    takeSnapshot mirrorA (Sampling.num 2) stT400 600 true [] = (stT400, false, []) := by
  refine ⟨(c2_throttle_rule mirrorA (Sampling.num 2) stT400 600 false []).2.1 ?_,
          (c2_throttle_rule mirrorA (Sampling.num 2) stT400 600 true []).2.1 ?_⟩ <;>
    · simp [shouldThrottle, stT400, initState, fpsOf]
      norm_num

/-- C5 counterexample: reset does not clear lastSnapshotTime, so after a
snapshot at t = 400 and a reset, a takeSnapshot at t = 600 is throttled —
while on a newly constructed manager it succeeds. A subsequent takeSnapshot
does not behave as if newly constructed. -/
theorem c5_counterexample :
    (takeSnapshot mirrorA Sampling.all
        ((reset ((takeSnapshot mirrorA Sampling.all initState 400 false []).1)).1)
        600 false []).2.1 = false ∧
    (takeSnapshot mirrorA Sampling.all initState 600 false []).2.1 = true := by
  have h400 : shouldThrottle Sampling.all initState 400 = false := by
    simp [shouldThrottle, initState]
  have hs1 : (takeSnapshot mirrorA Sampling.all initState 400 false []).1 =
      { initState with lastSnapshotTime := 400 } := by
    simp only [takeSnapshot, h400]
    simp [takeSnapshotPass, initState]
  have hs2 : (reset { initState with lastSnapshotTime := 400 }).1 =
      { initState with lastSnapshotTime := 400 } := by
    simp [reset, initState]
  have hthr : shouldThrottle Sampling.all
      { initState with lastSnapshotTime := 400 } 600 = true := by
    simp [shouldThrottle, initState, fpsOf]
    norm_num
  have h600 : shouldThrottle Sampling.all initState 600 = false := by
    simp [shouldThrottle, initState]
  constructor
  · rw [hs1, hs2]
    simp [takeSnapshot, hthr]
  · simp [takeSnapshot, h600]

/-- C5 (amended): reset clears the pending buffer, runs every registered
teardown handler — throwing or not, none blocks the rest — and empties the
handler list, clears the window and shadow-root registries, terminates and
drops the worker, and clears the in-flight map; it is idempotent, and a
subsequent intake behaves as on a newly constructed manager. But
lastSnapshotTime survives reset, so a subsequent takeSnapshot may still be
throttled, unlike on a fresh manager. -/
theorem c5_reset_state (st : ManagerState) (c : Canvas) (m : MutationWithType) :
    (reset st).1.pendingCanvasMutations = [] ∧
    (reset st).2 = st.restoreHandlers.map (·.key) ∧
    (reset st).1.restoreHandlers = [] ∧
    (reset st).1.windows = [] ∧
    (reset st).1.windowsSet = [] ∧
    (reset st).1.shadowDoms = [] ∧
    (reset st).1.worker = false ∧
    (reset st).1.snapshotInProgressMap = [] ∧
    reset (reset st).1 = ((reset st).1, []) ∧
    (processMutation (reset st).1 c m).pendingCanvasMutations =
      (processMutation initState c m).pendingCanvasMutations ∧
    (reset st).1.lastSnapshotTime = st.lastSnapshotTime := by
  refine ⟨rfl, rfl, rfl, rfl, rfl, rfl, rfl, rfl, rfl, ?_, rfl⟩
  simp [processMutation, reset, initState]

theorem pass_no_dispatch_of_inflight (mr : Mirror) (cs : List Canvas)
    (m : List (Int × Bool)) (i : Int) (h : iGetD m i = true) :
    (takeSnapshotPass mr m cs).2.countP (fun d => decide (d.id = i)) = 0 := by
  induction cs generalizing m with
  | nil => simp [takeSnapshotPass]
  | cons c rest ih =>
    by_cases hs : snapshotSkip mr m c = true
    · simp only [takeSnapshotPass, if_pos hs]
      exact ih m h
    · have hb : snapshotSkip mr m c = false := by
        cases hbb : snapshotSkip mr m c with
        | false => rfl
        | true => exact absurd hbb hs
      have hne : mr.getId c ≠ i := by
        intro he
        have hcon : snapshotSkip mr m c = true := by
          simp [snapshotSkip, he, h]
        exact absurd hcon hs
      have hstep := ih (iSet m (mr.getId c) true)
        (by rw [iGetD_iSet_ne _ _ _ _ hne]; exact h)
      simp [takeSnapshotPass, hb, List.countP_cons, hstep, hne]

theorem pass_countP_le_one (mr : Mirror) (cs : List Canvas)
    (m : List (Int × Bool)) (i : Int) :
    (takeSnapshotPass mr m cs).2.countP (fun d => decide (d.id = i)) ≤ 1 := by
  induction cs generalizing m with
  | nil => simp [takeSnapshotPass]
  | cons c rest ih =>
    by_cases hs : snapshotSkip mr m c = true
    · simp only [takeSnapshotPass, if_pos hs]
      exact ih m
    · have hb : snapshotSkip mr m c = false := by
        cases hbb : snapshotSkip mr m c with
        | false => rfl
        | true => exact absurd hbb hs
      by_cases hid : mr.getId c = i
      · subst hid
        have h0 := pass_no_dispatch_of_inflight mr rest (iSet m (mr.getId c) true)
          (mr.getId c) (iGetD_iSet_self m (mr.getId c) true)
        simp [takeSnapshotPass, hb, List.countP_cons, h0]
      · have hstep := ih (iSet m (mr.getId c) true)
        simp [takeSnapshotPass, hb, List.countP_cons, hid, hstep]

/-- C7: in a snapshot pass, a candidate that is untracked, zero-width,
zero-height or already in-flight is skipped — no dispatch, no state change;
an eligible candidate is dispatched with its id marked in-flight; an id
in-flight at the start of the pass is never dispatched, and no id is
dispatched twice in one pass. -/
theorem c7_snapshot_dedup (mr : Mirror) (m : List (Int × Bool)) (cs : List Canvas)
    (c : Canvas) (i : Int) :
    (snapshotSkip mr m c = true →
      takeSnapshotPass mr m (c :: cs) = takeSnapshotPass mr m cs) ∧
    (snapshotSkip mr m c = false →
      takeSnapshotPass mr m (c :: cs) =
        ((takeSnapshotPass mr (iSet m (mr.getId c) true) cs).1,
         { id := mr.getId c, width := c.width, height := c.height } ::
           (takeSnapshotPass mr (iSet m (mr.getId c) true) cs).2) ∧
      iGetD (iSet m (mr.getId c) true) (mr.getId c) = true) ∧
    (iGetD m i = true →
      (takeSnapshotPass mr m cs).2.countP (fun d => decide (d.id = i)) = 0) ∧
    (takeSnapshotPass mr m cs).2.countP (fun d => decide (d.id = i)) ≤ 1 := by
  refine ⟨?_, ?_, fun h => pass_no_dispatch_of_inflight mr cs m i h,
    pass_countP_le_one mr cs m i⟩
  · intro hs
    simp only [takeSnapshotPass, if_pos hs]
  · intro hs
    refine ⟨?_, iGetD_iSet_self _ _ _⟩
    simp [takeSnapshotPass, hs]

/-- A canvas whose id 1 is already in-flight in mIF. -/
def cIF : Canvas := ⟨1, 5, 5⟩

/-- An eligible canvas with id 2. -/
def cEl : Canvas := ⟨2, 5, 5⟩

/-- A second canvas resolving to the same id 2. -/
def cEl2 : Canvas := ⟨2, 7, 7⟩

/-- An in-flight map with id 1 outstanding. -/
def mIF : List (Int × Bool) := [(1, true)]

/-- C7 witness: of the three candidates, only the first id-2 canvas is
dispatched — the in-flight id 1 never is, and id 2 is not dispatched twice. -/
theorem c7_witness :
    (takeSnapshotPass mirrorA mIF [cIF, cEl, cEl2]).2 =
      [{ id := 2, width := 5, height := 5 }] ∧
    (takeSnapshotPass mirrorA mIF [cIF, cEl, cEl2]).2.countP
      (fun d => decide (d.id = 1)) = 0 :=
  ⟨by decide,
   (c7_snapshot_dedup mirrorA mIF [cIF, cEl, cEl2] cIF 1).2.2.1 (by decide)⟩

end RRWeb
